import Mathlib

/-!
Verification development for the Gaard reporting core.

Shallow embedding of the repository's pure computational core:
  * `src/statement_ingestion.py` — field normalisation (`_coerce_float`,
    `is_valid_ticker`) and the holdings construction
    (`process_holdings_from_data`);
  * `src/return_metrics.py`, `src/report_metrics.py`,
    `src/portfolio_analytics.py` — the windowed return calculators
    (`get_cumulative_return`) and the composite benchmark constructor
    (`calculate_composite_benchmark_return`);
  * `src/risk_metrics.py` — the benchmark/factor regression
    (`calculate_portfolio_risk`).

Machine floats are modelled by exact rationals (`ℚ`); a float `NaN` cell is
modelled by `Option.none`; a raised Python exception is modelled by an
`Option`/`Except` failure value.  Dates are modelled by a calendar structure
with the pandas `DateOffset` month/year subtraction semantics (day-of-month
clamped to the target month's length, Gregorian leap years).
-/

namespace Gaard

/-! ## Character and string helpers (models of Python `str` operations).

The embedding works over `List Char`.  Only the ASCII fragment of Python's
semantics is modelled (the statements being ingested are ASCII CSV exports):
`str.strip` strips ASCII whitespace, `str.upper` maps `a..z` to `A..Z`,
`str.isdigit` recognises `0..9`. -/

/-- ASCII whitespace, as stripped by Python's `str.strip()`. -/
def isPySpace (c : Char) : Bool :=
  c == ' ' || c == '\t' || c == '\n' || c == '\r' || c == '\x0b' || c == '\x0c'

/-- Python `str.strip()` on a character list. -/
def stripChars (l : List Char) : List Char :=
  ((l.dropWhile isPySpace).reverse.dropWhile isPySpace).reverse

/-- Python `str.upper()` on a character list (ASCII fragment). -/
def upperChars (l : List Char) : List Char :=
  l.map Char.toUpper

/-- `needle` occurs at the head of `hay`. -/
def leadsList : List Char → List Char → Bool
  | [], _ => true
  | _ :: _, [] => false
  | a :: as, b :: bs => a == b && leadsList as bs

/-- Python `needle in hay` on strings: `needle` occurs contiguously in `hay`. -/
def occursIn (needle : List Char) : List Char → Bool
  | [] => leadsList needle []
  | c :: rest => leadsList needle (c :: rest) || occursIn needle rest

/-! ## `_coerce_float` and `is_valid_ticker` (statement_ingestion.py) -/

/-- Numeric value of an ASCII digit. -/
def digitVal (c : Char) : ℕ := c.toNat - '0'.toNat

@[simp] theorem toNat_ch0 : ('0' : Char).toNat = 48 := rfl

@[simp] theorem toNat_ch1 : ('1' : Char).toNat = 49 := rfl

@[simp] theorem toNat_ch2 : ('2' : Char).toNat = 50 := rfl

@[simp] theorem toNat_ch3 : ('3' : Char).toNat = 51 := rfl

@[simp] theorem toNat_ch4 : ('4' : Char).toNat = 52 := rfl

@[simp] theorem toNat_ch5 : ('5' : Char).toNat = 53 := rfl

@[simp] theorem toNat_ch6 : ('6' : Char).toNat = 54 := rfl

@[simp] theorem toNat_ch7 : ('7' : Char).toNat = 55 := rfl

@[simp] theorem toNat_ch8 : ('8' : Char).toNat = 56 := rfl

@[simp] theorem toNat_ch9 : ('9' : Char).toNat = 57 := rfl

/-- Value of an ASCII digit string. -/
def digitsToNat (l : List Char) : ℕ := l.foldl (fun a c => a * 10 + digitVal c) 0

/-- Model of Python's `float(str)` on the decimal-literal fragment
`[sign] (digits [. digits] | . digits) [(e|E) [sign] digits]` (the fragment
exercised by statement CSV cells; `inf`/`nan`/underscore literals are outside
the modelled fragment).  `none` models the `ValueError` raise. -/
def parseFloatQ (l : List Char) : Option ℚ :=
  let sgnSplit : ℚ × List Char :=
    match l with
    | '-' :: t => (-1, t)
    | '+' :: t => (1, t)
    | _ => (1, l)
  let sgn := sgnSplit.1
  let l1 := sgnSplit.2
  let ip := l1.takeWhile Char.isDigit
  let l2 := l1.dropWhile Char.isDigit
  let fracSplit : List Char × List Char :=
    match l2 with
    | '.' :: t => (t.takeWhile Char.isDigit, t.dropWhile Char.isDigit)
    | _ => ([], l2)
  let fp := fracSplit.1
  let l3 := fracSplit.2
  if ip.isEmpty && fp.isEmpty then none
  else
    let mant : ℚ := (digitsToNat (ip ++ fp) : ℚ) / ((10 : ℚ) ^ fp.length)
    match l3 with
    | [] => some (sgn * mant)
    | e :: t =>
      if e == 'e' || e == 'E' then
        let esgnSplit : Bool × List Char :=
          match t with
          | '-' :: u => (true, u)
          | '+' :: u => (false, u)
          | _ => (false, t)
        let ed := esgnSplit.2.takeWhile Char.isDigit
        let t2 := esgnSplit.2.dropWhile Char.isDigit
        if ed.isEmpty || !t2.isEmpty then none
        else
          let ex : ℚ := (10 : ℚ) ^ digitsToNat ed
          some (sgn * mant * (if esgnSplit.1 then ex⁻¹ else ex))
      else none

/-- `_coerce_float` (statement_ingestion.py): strips `,`/`$`/`%` and
whitespace, interprets a parenthesised value as negative, and coerces empty or
unparseable input to `0.0`.  Cells are CSV strings (a missing cell is the
empty string). -/
def coerceFloat (value : String) : ℚ :=
  if value == "" then 0
  else
    let cleaned :=
      stripChars (value.toList.filter fun c => !(c == ',' || c == '$' || c == '%'))
    if cleaned.isEmpty then 0
    else
      let signed :=
        if cleaned.head? == some '(' && cleaned.getLast? == some ')' then
          '-' :: (cleaned.drop 1).dropLast
        else cleaned
      (parseFloatQ signed).getD 0

/-- `is_valid_ticker` (statement_ingestion.py): rejects blank tokens and
section artifacts (`TOTAL`, `SUBTOTAL`, `STOCKS`, `EQUITY`, `BONDS`, `CASH`,
`FUNDS` occurring as substrings of the upper-cased stripped token). -/
def is_valid_ticker (ticker : String) : Bool :=
  let t := stripChars (upperChars ticker.toList)
  if t.isEmpty then false
  else
    let invalid := ["TOTAL", "SUBTOTAL", "STOCKS", "EQUITY", "BONDS", "CASH", "FUNDS"]
    !(invalid.any fun x => occursIn x.toList t)

/-! ## Calendar dates with pandas `DateOffset` arithmetic -/

/-- A calendar date (the model of a `pd.Timestamp` day). -/
structure Date where
  y : ℕ
  m : ℕ
  d : ℕ
deriving DecidableEq, Repr

/-- Order key: lexicographic on (year, month, day) for well-formed dates. -/
def Date.key (t : Date) : ℕ := (t.y * 16 + t.m) * 32 + t.d

instance : LT Date := ⟨fun a b => a.key < b.key⟩
instance : LE Date := ⟨fun a b => a.key ≤ b.key⟩

instance (a b : Date) : Decidable (a < b) :=
  inferInstanceAs (Decidable (a.key < b.key))

instance (a b : Date) : Decidable (a ≤ b) :=
  inferInstanceAs (Decidable (a.key ≤ b.key))

/-- Gregorian leap year. -/
def isLeap (y : ℕ) : Bool := y % 4 == 0 && (y % 100 != 0 || y % 400 == 0)

/-- Days in a Gregorian month. -/
def daysInMonth (y m : ℕ) : ℕ :=
  if m == 2 then (if isLeap y then 29 else 28)
  else if m == 4 || m == 6 || m == 9 || m == 11 then 30
  else 31

/-- `date - pd.DateOffset(months=k)`: shift the month index back `k`, clamping
the day to the target month's length (truncating at year 0, which no report
date reaches). -/
def Date.subMonths (t : Date) (k : ℕ) : Date :=
  let tot := t.y * 12 + (t.m - 1) - k
  let y := tot / 12
  let m := tot % 12 + 1
  ⟨y, m, min t.d (daysInMonth y m)⟩

/-- `date - pd.DateOffset(years=k)`: same month, day clamped (Feb 29 → Feb 28
on a non-leap target year). -/
def Date.subYears (t : Date) (k : ℕ) : Date :=
  let y := t.y - k
  ⟨y, t.m, min t.d (daysInMonth y t.m)⟩

/-! ## Reconciliation engine: `process_holdings_from_data`
(statement_ingestion.py).

A section `DataFrame` is modelled as a list of typed rows whose cells are the
raw CSV strings (a cell absent from the statement is the empty string, which
`_coerce_float` sends to 0). -/

namespace StatementIngestion

/-- A row of the `Open Position Summary` section (columns used by the code). -/
structure OpenRow where
  Symbol : String
  Value : String
  CostBasis : String
  Description : String
  Sector : String
deriving DecidableEq, Repr

/-- A row of the `Dividends` section. -/
structure DivRow where
  Symbol : String
  Amount : String
deriving DecidableEq, Repr

/-- A row of the `Performance by Symbol` section.  `RealizedPL` is the
`Realized_P&L` column and `Ret` the `Return` column. -/
structure PerfRow where
  Symbol : String
  RealizedPL : String
  Ret : String
  Description : String
  Sector : String
deriving DecidableEq, Repr

/-- The three source tables consumed by `process_holdings_from_data`. -/
structure Sections where
  open_positions : List OpenRow
  dividends : List DivRow
  perf_by_symbol : List PerfRow

/-- Step 1: open positions surviving the `is_valid_ticker` filter. -/
def validOpen (s : Sections) : List OpenRow :=
  s.open_positions.filter fun r => is_valid_ticker r.Symbol

/-- Step 2: dividend rows surviving the `is_valid_ticker` filter. -/
def validDivs (s : Sections) : List DivRow :=
  s.dividends.filter fun r => is_valid_ticker r.Symbol

/-- Step 3: performance rows surviving the `is_valid_ticker` filter. -/
def validPerf (s : Sections) : List PerfRow :=
  s.perf_by_symbol.filter fun r => is_valid_ticker r.Symbol

/-- `div_map.get(symbol, 0.0)`: `groupby('Symbol')['Amount'].sum()` with
default 0 for an absent key. -/
def divSum (s : Sections) (sym : String) : ℚ :=
  (((validDivs s).filter fun r => r.Symbol == sym).map fun r =>
    coerceFloat r.Amount).sum

/-- `real_map.get(symbol, 0.0)`: `groupby('Symbol')['Realized_P&L'].sum()`
with default 0 for an absent key. -/
def realSum (s : Sections) (sym : String) : ℚ :=
  (((validPerf s).filter fun r => r.Symbol == sym).map fun r =>
    coerceFloat r.RealizedPL).sum

/-- The performance row backing `set_index('Symbol')[col].to_dict()` lookups:
the **last** row with the given symbol (later rows overwrite earlier ones when
a DataFrame is turned into a dict keyed by symbol). -/
def perfRowFor (s : Sections) (sym : String) : Option PerfRow :=
  ((validPerf s).filter fun r => r.Symbol == sym).getLast?

/-- `desc_map.get(symbol, '')`. -/
def descFor (s : Sections) (sym : String) : String :=
  ((perfRowFor s sym).map (·.Description)).getD ""

/-- `sector_map.get(symbol, '')`. -/
def sectorFor (s : Sections) (sym : String) : String :=
  ((perfRowFor s sym).map (·.Sector)).getD ""

/-- `ibkr_return_map.get(symbol)`: the statement's own `Return` column divided
by 100 (`some` exactly when a valid performance row for the symbol exists). -/
def ibkrReturnFor (s : Sections) (sym : String) : Option ℚ :=
  (perfRowFor s sym).map fun r => coerceFloat r.Ret / 100

/-- `df_open[df_open['Symbol'] == symbol]`. -/
def openRowsFor (s : Sections) (sym : String) : List OpenRow :=
  (validOpen s).filter fun r => r.Symbol == sym

/-- `all_symbols`: union of the symbols of the three tables with `''`
discarded (Python iterates a `set`, so the order is arbitrary; the embedding
fixes one order, which no theorem below depends on). -/
def all_symbols (s : Sections) : List String :=
  (((validOpen s).map (·.Symbol) ++ (validDivs s).map (·.Symbol) ++
    (validPerf s).map (·.Symbol)).dedup).filter fun x => x != ""

/-- An instrument record of the reconciled holdings table. -/
structure HoldingRow where
  ticker : String
  description : String
  asset_class : String
  raw_value : ℚ
  avg_cost : ℚ
  total_dividends : ℚ
  realized_pl : ℚ
  cumulative_return : ℚ
  avg_weight : ℚ
deriving DecidableEq, Repr

/-- The loop body of `process_holdings_from_data`: build one instrument record
for `symbol` (weight filled in afterwards). -/
def mkHoldingRow (s : Sections) (symbol : String) : HoldingRow :=
  let o := openRowsFor s symbol
  let cv := (o.map fun r => coerceFloat r.Value).sum
  let cb := (o.map fun r => coerceFloat r.CostBasis).sum
  let desc := match o with
    | r :: _ => r.Description
    | [] => descFor s symbol
  let sector := match o with
    | r :: _ => r.Sector
    | [] => sectorFor s symbol
  let div := divSum s symbol
  let real := realSum s symbol
  let ret := match ibkrReturnFor s symbol with
    | some twr => twr
    | none => if cb > 0 then ((cv - cb) + div + real) / cb else 0
  { ticker := symbol, description := desc, asset_class := sector,
    raw_value := cv, avg_cost := cb, total_dividends := div,
    realized_pl := real, cumulative_return := ret, avg_weight := 0 }

/-- `process_holdings_from_data` (statement_ingestion.py): one record per
distinct symbol, then `avg_weight = raw_value / total` when the total is
nonzero, else the scalar 0.0. -/
def process_holdings_from_data (s : Sections) : List HoldingRow :=
  let rows := (all_symbols s).map (mkHoldingRow s)
  let total_val : ℚ := (rows.map (·.raw_value)).sum
  if total_val ≠ 0 then
    rows.map fun r => { r with avg_weight := r.raw_value / total_val }
  else
    rows.map fun r => { r with avg_weight := 0 }

end StatementIngestion

/-! ## Time-window return calculators -/

/-- `Series.dropna()`: drop the NaN entries. -/
def dropNone (l : List (Date × Option ℚ)) : List (Date × ℚ) :=
  l.filterMap fun p => p.2.map fun v => (p.1, v)

/-- Stable insertion into a date-sorted list. -/
def insertByDate (p : Date × ℚ) : List (Date × ℚ) → List (Date × ℚ)
  | [] => [p]
  | q :: t => if p.1 ≤ q.1 then p :: q :: t else q :: insertByDate p t

/-- `Series.sort_index()`: stable sort by date. -/
def sortByDate : List (Date × ℚ) → List (Date × ℚ)
  | [] => []
  | p :: t => insertByDate p (sortByDate t)

/-- `Series.asof(d)` on a dropna'd, sorted series: the value at the last
position whose index is ≤ `d` (`none` models the NaN result when every index
exceeds `d`). -/
def asof (l : List (Date × ℚ)) (d : Date) : Option ℚ :=
  ((l.filter fun p => p.1 ≤ d).getLast?).map (·.2)

/-- Association lookup by date (the inner-join probe). -/
def lookupDate {α : Type} : List (Date × α) → Date → Option α
  | [], _ => none
  | p :: t, d => if p.1 = d then some p.2 else lookupDate t d

/-- Association lookup by string key (first match; models `dict`/column
access). -/
def assocFind {α : Type} : List (String × α) → String → Option α
  | [], _ => none
  | p :: t, k => if p.1 = k then some p.2 else assocFind t k

/-- The dates of a series are strictly increasing (the spec's Value Series
carries no duplicate dates). -/
def strictAscending : List (Date × ℚ) → Bool
  | [] => true
  | [_] => true
  | p :: q :: t => decide (p.1 < q.1) && strictAscending (q :: t)

/-- Python `str.upper()` (ASCII fragment) as a `String` operation. -/
def strUpper (s : String) : String := ⟨upperChars s.toList⟩

/-- Python `str.isdigit()` on the ASCII fragment: nonempty and all `0..9`. -/
def isDigitsL (l : List Char) : Bool := !l.isEmpty && l.all Char.isDigit

/-- `window.endswith(c)` for a one-character suffix. -/
def endsCh (s : String) (c : Char) : Bool := s.toList.getLast? == some c

/-- `window[:-1]` as a character list. -/
def dropLast1 (s : String) : List Char := s.toList.dropLast

/-- The window-to-start-date resolution shared by `return_metrics.py` and
`report_metrics.py`: `YTD` anchors at Jan 1 of the end date's year, `<n>Y` and
`<n>M` subtract a calendar `DateOffset`; `none` for every other window (the
caller falls through to the inception return). -/
def resolveStart (endDate : Date) (w : String) : Option Date :=
  if w == "YTD" then some ⟨endDate.y, 1, 1⟩
  else if endsCh w 'Y' && isDigitsL (dropLast1 w) then
    some (endDate.subYears (digitsToNat (dropLast1 w)))
  else if endsCh w 'M' && isDigitsL (dropLast1 w) then
    some (endDate.subMonths (digitsToNat (dropLast1 w)))
  else none

namespace ReturnMetrics

/-- `get_cumulative_return` (return_metrics.py).  `some 0` for an empty input
series; `none` models the `IndexError` raised by `iloc[-1]` when a nonempty
series becomes empty after `dropna()` (that case is not re-checked). -/
def get_cumulative_return (series : List (Date × Option ℚ)) (window : String) :
    Option ℚ :=
  if series.isEmpty then some 0
  else
    match sortByDate (dropNone series) with
    | [] => none
    | first :: rest =>
      let s := first :: rest
      let endPrice := (rest.getLastD first).2
      let endDate := (rest.getLastD first).1
      let w := strUpper window
      if w == "INCEPTION" then some (endPrice / first.2 - 1)
      else
        match resolveStart endDate w with
        | none => some (endPrice / first.2 - 1)
        | some st0 =>
          let st := if st0 < first.1 then first.1 else st0
          let sp := match asof s st with
            | none => first.2
            | some v => if v = 0 then first.2 else v
          some (endPrice / sp - 1)

end ReturnMetrics

namespace ReportMetrics

/-- `get_cumulative_return` (report_metrics.py); its body is identical to the
return_metrics.py copy. -/
def get_cumulative_return (series : List (Date × Option ℚ)) (window : String) :
    Option ℚ :=
  if series.isEmpty then some 0
  else
    match sortByDate (dropNone series) with
    | [] => none
    | first :: rest =>
      let s := first :: rest
      let endPrice := (rest.getLastD first).2
      let endDate := (rest.getLastD first).1
      let w := strUpper window
      if w == "INCEPTION" then some (endPrice / first.2 - 1)
      else
        match resolveStart endDate w with
        | none => some (endPrice / first.2 - 1)
        | some st0 =>
          let st := if st0 < first.1 then first.1 else st0
          let sp := match asof s st with
            | none => first.2
            | some v => if v = 0 then first.2 else v
          some (endPrice / sp - 1)

end ReportMetrics

namespace PortfolioAnalytics

/-- Split a character list on `'-'`. -/
def splitDash : List Char → List (List Char)
  | [] => [[]]
  | c :: t =>
    if c == '-' then [] :: splitDash t
    else
      match splitDash t with
      | h :: r => (c :: h) :: r
      | [] => [[c]]

/-- Python `str.replace(pat, "")` (all occurrences removed), fuelled by the
input length for structural recursion. -/
def removeAllOcc (pat : List Char) (l : List Char) : List Char :=
  go l.length l
where
  go : ℕ → List Char → List Char
  | _, [] => []
  | 0, l => l
  | n + 1, c :: t =>
    if !pat.isEmpty && leadsList pat (c :: t) then
      go n (List.drop (pat.length - 1) t)
    else c :: go n t

/-- Model of `pd.Timestamp("<YYYY>-<MM>-<DD>")` on ISO dates (`none` = the
constructor's raise on an unparseable string). -/
def parseISODate (l : List Char) : Option Date :=
  match splitDash l with
  | [ys, ms, ds] =>
    if isDigitsL ys && isDigitsL ms && isDigitsL ds then
      some ⟨digitsToNat ys, digitsToNat ms, digitsToNat ds⟩
    else none
  | _ => none

/-- `get_cumulative_return` (portfolio_analytics.py).  This copy re-checks
emptiness after `dropna()` (returning 0.0), supports `SINCE_<date>`, and its
final `else` tries `pd.tseries.frequencies.to_offset(window)` — an external
pandas routine passed in as the parameter `toOffset` (`none` = the
`ValueError` raise).  A `none` result models a raised exception. -/
def get_cumulative_return (toOffset : String → Date → Option Date)
    (prices : List (Date × Option ℚ)) (window : String) : Option ℚ :=
  if prices.isEmpty then some 0
  else
    match sortByDate (dropNone prices) with
    | [] => some 0
    | first :: rest =>
      let s := first :: rest
      let endDate := (rest.getLastD first).1
      let endPrice := (rest.getLastD first).2
      let w := strUpper window
      let startDate? : Option Date :=
        if w == "INCEPTION" then some first.1
        else if w == "YTD" then some ⟨endDate.y, 1, 1⟩
        else if leadsList "SINCE_".toList w.toList then
          parseISODate (removeAllOcc "SINCE_".toList w.toList)
        else if endsCh w 'Y' && isDigitsL (dropLast1 w) then
          some (endDate.subYears (digitsToNat (dropLast1 w)))
        else if endsCh w 'M' && isDigitsL (dropLast1 w) then
          some (endDate.subMonths (digitsToNat (dropLast1 w)))
        else toOffset w endDate
      match startDate? with
      | none => none
      | some sd0 =>
        let sd := if sd0 < first.1 then first.1 else sd0
        let sp := match asof s sd with
          | none => first.2
          | some v => if v = 0 then first.2 else v
        some (endPrice / sp - 1)

end PortfolioAnalytics

/-! ## Composite benchmark constructor (return_metrics.py) -/

namespace ReturnMetrics

/-- A benchmark daily-returns `DataFrame`: a date index and one column of
`Option ℚ` cells per ticker (`none` = NaN), each aligned with the index. -/
structure BenchTable where
  dates : List Date
  cols : List (String × List (Option ℚ))

/-- `df[ticker]` by first-matching column name. -/
def lookupCol (tbl : BenchTable) (t : String) : Option (List (Option ℚ)) :=
  assocFind tbl.cols t

/-- `composite_series += df[ticker].fillna(0.0) * weight`. -/
def addWeighted (acc : List ℚ) (col : List (Option ℚ)) (w : ℚ) : List ℚ :=
  acc.zipWith (fun a v => a + v.getD 0 * w) col

/-- `calculate_composite_benchmark_return` (return_metrics.py): starting from
a zero series on the table's index, add `weight * fillna(0)` for each weighted
ticker present among the columns.  `df.empty` is true when either axis has
length 0. -/
def calculate_composite_benchmark_return (tbl : BenchTable)
    (weights : List (String × ℚ)) : List ℚ :=
  if tbl.dates.isEmpty || tbl.cols.isEmpty then []
  else
    weights.foldl
      (fun acc tw =>
        match lookupCol tbl tw.1 with
        | none => acc
        | some col => addWeighted acc col tw.2)
      (tbl.dates.map fun _ => 0)

/-- The cell of ticker `t` at row `i`, with a missing ticker or a NaN cell
contributing 0 (the spec's reading of the composite). -/
def cellOrZero (tbl : BenchTable) (t : String) (i : ℕ) : ℚ :=
  match lookupCol tbl t with
  | none => 0
  | some col => (col.getD i none).getD 0

/-- The composite series as the spec words it: at each date of the table's
index, the sum over constituent tickers of weight times that ticker's return,
a missing observation contributing 0. -/
def compositeSpec (tbl : BenchTable) (weights : List (String × ℚ)) : List ℚ :=
  (List.range tbl.dates.length).map fun i =>
    (weights.map fun tw => tw.2 * cellOrZero tbl tw.1 i).sum

end ReturnMetrics

/-! ## Risk/factor regression (risk_metrics.py) -/

namespace RiskMetrics

/-- A risk-metric value.  `ratv q` is a plain float; `stdAnn v` is the
annualized standard deviation `sqrt(v) * sqrt(252)` carried symbolically (its
real denotation is `RVal.toReal`). -/
inductive RVal where
  | ratv (q : ℚ)
  | stdAnn (variance : ℚ)
deriving DecidableEq, Repr

/-- Real denotation of a risk-metric value. -/
noncomputable def RVal.toReal : RVal → ℝ
  | .ratv q => (q : ℝ)
  | .stdAnn v => Real.sqrt (v : ℝ) * Real.sqrt 252

/-- Mean of a list of rationals (`sum / length`). -/
def qmean (l : List ℚ) : ℚ := l.sum / l.length

/-- Centered sum of squares `Σ (x - x̄)²`. -/
def ssd (l : List ℚ) : ℚ := (l.map fun x => (x - qmean l) ^ 2).sum

/-- Centered cross sum `Σ (x - x̄)(y - ȳ)` over the zipped lists. -/
def sxy (xs ys : List ℚ) : ℚ :=
  ((xs.zip ys).map fun p => (p.1 - qmean xs) * (p.2 - qmean ys)).sum

/-- All elements equal (`np.amax(x) == np.amin(x)` on a nonempty list). -/
def allEqualP : List ℚ → Prop
  | [] => True
  | a :: t => ∀ x ∈ t, x = a

instance (xs : List ℚ) : Decidable (allEqualP xs) :=
  match xs with
  | [] => isTrue trivial
  | a :: t => List.decidableBAll (fun x => x = a) t

/-- `scipy.stats.linregress(x, y)`, returning `(slope, intercept, r²)`.
scipy raises `ValueError` when all x values are identical and `len(x) > 1`
(modelled by `.error`); its slope is `cov(x,y)/var(x)` and its `r` is 0 when
either centered sum of squares vanishes — the Python callers only consume
`r_value ** 2`, so the square is returned directly (as exact rationals the
`bias=1` covariance normalisation cancels from both ratios). -/
def linregress (xs ys : List ℚ) : Except Unit (ℚ × ℚ × ℚ) :=
  if xs.length > 1 ∧ allEqualP xs then .error ()
  else
    let slope := sxy xs ys / ssd xs
    let intercept := qmean ys - slope * qmean xs
    let rsq := if ssd xs = 0 ∨ ssd ys = 0 then 0
               else sxy xs ys ^ 2 / (ssd xs * ssd ys)
    .ok (slope, intercept, rsq)

/-- `Series.std()` squared: the ddof=1 sample variance (only consumed under a
`length ≥ 2` hypothesis; pandas yields NaN on a single observation). -/
def sampleVar (l : List ℚ) : ℚ :=
  (l.map fun x => (x - qmean l) ^ 2).sum / ((l.length : ℚ) - 1)

/-- The squared sample correlation, as the spec words R² ("the squared
correlation of that regression"): squared ddof-1 covariance over the product
of the ddof-1 variances. -/
def corrSq (xs ys : List ℚ) : ℚ :=
  (sxy xs ys / ((xs.length : ℚ) - 1)) ^ 2
    / ((ssd xs / ((xs.length : ℚ) - 1)) * (ssd ys / ((ys.length : ℚ) - 1)))

/-- The OLS slope of y on x, as the spec words Beta. -/
def olsSlope (xs ys : List ℚ) : ℚ := sxy xs ys / ssd xs

/-- The OLS intercept of y on x. -/
def olsIntercept (xs ys : List ℚ) : ℚ := qmean ys - olsSlope xs ys * qmean xs

/-- The OLS regression residuals over the aligned (x, y) pairs. -/
def olsResiduals (combined : List (ℚ × ℚ)) : List ℚ :=
  combined.map fun p =>
    p.2 - (olsIntercept (combined.map (·.1)) (combined.map (·.2))
      + olsSlope (combined.map (·.1)) (combined.map (·.2)) * p.1)

/-- The metrics dictionary: insertion-ordered key/value pairs. -/
abbrev Metrics := List (String × RVal)

/-- `metrics[k] = v`: overwrite in place, append if absent (Python dict
assignment keeps the original key position). -/
def updateKey (m : Metrics) (k : String) (v : RVal) : Metrics :=
  match m with
  | [] => [(k, v)]
  | (k', v') :: rest => if k' = k then (k, v) :: rest else (k', v') :: updateKey rest k v

/-- The initial `metrics` dictionary of `calculate_portfolio_risk`. -/
def initialMetrics : Metrics :=
  [("Idiosyncratic Risk", .ratv 0), ("R-Squared (vs Bench)", .ratv 0),
   ("Beta: Size (IWM)", .ratv 0), ("Beta: Value (IWD)", .ratv 0),
   ("Beta: Quality (QUAL)", .ratv 0), ("Beta: Momentum (MTUM)", .ratv 0)]

/-- `Series.pct_change().dropna()`: consecutive ratios minus one, the first
(NaN) entry dropped.  (A zero NAV would give a float infinity in pandas; NAV
histories are positive and that case is outside every hypothesis below.) -/
def pctChange : List (Date × ℚ) → List (Date × ℚ)
  | [] => []
  | p :: rest => pctChangeGo p rest
where
  pctChangeGo : Date × ℚ → List (Date × ℚ) → List (Date × ℚ)
  | _, [] => []
  | prev, q :: t => (q.1, q.2 / prev.2 - 1) :: pctChangeGo q t

/-- `pd.concat([port, bench], axis=1, join='inner').dropna()` with unique
date indexes: the (benchmark, portfolio) pairs over the common dates, in the
portfolio's date order. -/
def alignWithBench (port bench : List (Date × ℚ)) : List (ℚ × ℚ) :=
  port.filterMap fun p => (lookupDate bench p.1).map fun b => (b, p.2)

/-- The factor daily-returns table (`f_rets` after its `.dropna()`): column
names as downloaded and NaN-free rows aligned with them. -/
structure FactorData where
  cols : List String
  rows : List (Date × List ℚ)

/-- The `factors` dictionary (insertion order). -/
def factors : List (String × String) :=
  [("Size (IWM)", "IWM"), ("Value (IWD)", "IWD"),
   ("Quality (QUAL)", "QUAL"), ("Momentum (MTUM)", "MTUM")]

/-- `aligned_factors`: inner join of the portfolio return series with the
factor rows — each element is (portfolio return, factor row). -/
def alignWithFactors (port : List (Date × ℚ)) (f : FactorData) :
    List (ℚ × List ℚ) :=
  port.filterMap fun p => (lookupDate f.rows p.1).map fun vs => (p.2, vs)

/-- `aligned_factors[ticker]`: `some` exactly when the ticker is among the
downloaded columns (`if ticker in aligned_factors.columns`). -/
def factorCol (f : FactorData) (aligned : List (ℚ × List ℚ)) (t : String) :
    Option (List ℚ) :=
  (f.cols.indexOf? t).map fun i => aligned.map fun r => r.2.getD i 0

/-- The factor `for` loop.  The enclosing `try/except` sits **outside** the
loop in the source, so a `ValueError` from `linregress` stops the whole loop:
updates made for earlier factors persist, later factors are never reached, and
the function continues with the metrics accumulated so far. -/
def factorLoop (f : FactorData) (aligned : List (ℚ × List ℚ)) (y : List ℚ) :
    Metrics → List (String × String) → Metrics
  | m, [] => m
  | m, (label, ticker) :: rest =>
    match factorCol f aligned ticker with
    | none => factorLoop f aligned y m rest
    | some x =>
      if x.length > 1 then
        match linregress x y with
        | .ok res => factorLoop f aligned y
            (updateKey m ("Beta: " ++ label) (.ratv res.1)) rest
        | .error _ => m
      else factorLoop f aligned y m rest

/-- The guarded factor section of `calculate_portfolio_risk` (the `yf.download`
network fetch supplies `f`; empty portfolio returns, empty factor data, or an
empty alignment skip the loop). -/
def runFactorPart (port : List (Date × ℚ)) (f : FactorData) (m : Metrics) :
    Metrics :=
  if port.isEmpty then m
  else if f.rows.isEmpty || f.cols.isEmpty then m
  else
    let aligned := alignWithFactors port f
    if aligned.isEmpty then m
    else factorLoop f aligned (aligned.map (·.1)) m factors

/-- The benchmark-regression step of `calculate_portfolio_risk` (section A of
the source): when the portfolio/benchmark alignment is nonempty, run
`stats.linregress` of portfolio on benchmark — a `ValueError` on a constant
benchmark propagates (`none`), since this call sits outside any `try` — and
write `Idiosyncratic Risk` (annualized residual standard deviation) and
`R-Squared (vs Bench)` (`r_value ** 2`) into the metrics dictionary.  The
computed slope (the benchmark beta) is discarded: no `Beta` key is written. -/
def benchSection (combined : List (ℚ × ℚ)) (m : Metrics) : Option Metrics :=
  if combined.isEmpty then some m
  else
    match linregress (combined.map (·.1)) (combined.map (·.2)) with
    | .error _ => none
    | .ok res =>
      let residuals := combined.map fun p => p.2 - (res.2.1 + res.1 * p.1)
      some (updateKey
        (updateKey m "Idiosyncratic Risk" (.stdAnn (sampleVar residuals)))
        "R-Squared (vs Bench)" (.ratv res.2.2))

/-- `calculate_portfolio_risk` (risk_metrics.py).  The live risk-free-rate
fetch is omitted: its value is printed but never used in the computation.
A `none` result models the un-caught `ValueError` that `stats.linregress`
raises on a constant benchmark alignment (that call is not inside a `try`).
-/
def calculate_portfolio_risk (daily_nav : List (Date × ℚ))
    (bench : List (Date × ℚ)) (lookback_years : Option ℕ)
    (fRets : FactorData) : Option Metrics :=
  if daily_nav.isEmpty || bench.isEmpty then some initialMetrics
  else
    let df := sortByDate daily_nav
    let cut : List (Date × ℚ) × List (Date × ℚ) :=
      match lookback_years with
      | some n =>
        if n > 0 then
          let endD := (df.getLastD (⟨0, 0, 0⟩, 0)).1
          let startD := endD.subYears n
          (df.filter fun p => startD ≤ p.1, bench.filter fun p => startD ≤ p.1)
        else (df, bench)
      | none => (df, bench)
    let port := pctChange cut.1
    let combined := alignWithBench port cut.2
    match benchSection combined initialMetrics with
    | none => none
    | some m1 => some (runFactorPart port fRets m1)

end RiskMetrics

/-! ## General lemmas -/

theorem Date.le_def (a b : Date) : (a ≤ b) = (a.key ≤ b.key) := rfl

theorem Date.lt_def (a b : Date) : (a < b) = (a.key < b.key) := rfl

theorem strictAscending_cons (p q : Date × ℚ) (t : List (Date × ℚ))
    (h : strictAscending (p :: q :: t) = true) :
    p.1 < q.1 ∧ strictAscending (q :: t) = true := by
  simpa [strictAscending] using h

/-- In a strictly ascending series every later date exceeds the head's. -/
theorem strict_head_lt (p : Date × ℚ) :
    ∀ (l : List (Date × ℚ)), strictAscending (p :: l) = true →
      ∀ q ∈ l, p.1 < q.1
  | [], _, q, hq => absurd hq (List.not_mem_nil q)
  | r :: t, h, q, hq => by
    obtain ⟨hpr, ht⟩ := strictAscending_cons p r t h
    rcases List.mem_cons.mp hq with rfl | hq'
    · exact hpr
    · have h2 := strict_head_lt r t ht q hq'
      rw [Date.lt_def] at hpr h2 ⊢
      exact Nat.lt_trans hpr h2

/-- On a strictly ascending series, `asof` at the first date returns the first
value. -/
theorem asof_head (first : Date × ℚ) (rest : List (Date × ℚ))
    (h : strictAscending (first :: rest) = true) :
    asof (first :: rest) first.1 = some first.2 := by
  have hq := strict_head_lt first rest h
  have hfilter : List.filter (fun p => decide (p.1 ≤ first.1)) rest = [] := by
    rw [List.filter_eq_nil_iff]
    intro a ha
    have h1 := hq a ha
    rw [Date.lt_def] at h1
    simp only [decide_eq_true_eq, Date.le_def]
    omega
  have hd : decide (first.1 ≤ first.1) = true := by simp [Date.le_def]
  simp [asof, List.filter_cons, hfilter, hd]

namespace RiskMetrics

/-- `updateKey` behaves as a map update under `assocFind`. -/
theorem assocFind_updateKey (m : Metrics) (k k' : String) (v : RVal) :
    assocFind (updateKey m k v) k' = if k' = k then some v else assocFind m k' := by
  induction m with
  | nil =>
    by_cases h : k' = k
    · simp [updateKey, assocFind, h]
    · simp [updateKey, assocFind, h, Ne.symm h]
  | cons p t ih =>
    by_cases h1 : p.1 = k
    · by_cases h2 : k' = k
      · subst h2; simp [updateKey, assocFind, h1]
      · have hpk : ¬ p.1 = k' := by rw [h1]; exact Ne.symm h2
        simp [updateKey, assocFind, h1, h2, Ne.symm h2, hpk]
    · by_cases h2 : p.1 = k'
      · have hk : ¬ k' = k := h2 ▸ h1
        simp [updateKey, assocFind, h1, h2, hk]
      · simp [updateKey, assocFind, h1, h2, ih]

end RiskMetrics

/-! ## Claim C5 — INCEPTION window return -/

/-- C5: for every value series that is non-empty after dropping NaN entries
and sorting by date (with the Value Series' duplicate-free dates and a nonzero
first value), all three `get_cumulative_return` implementations
(return_metrics.py, report_metrics.py, portfolio_analytics.py) return exactly
`(last value / first value) - 1` for the window `INCEPTION`. -/
theorem C5_inception_exact (toOffset : String → Date → Option Date)
    (series : List (Date × Option ℚ)) (first : Date × ℚ) (rest : List (Date × ℚ))
    (hs : sortByDate (dropNone series) = first :: rest)
    (hstrict : strictAscending (first :: rest) = true)
    (hfz : first.2 ≠ 0) :
    ReturnMetrics.get_cumulative_return series "INCEPTION"
        = some ((rest.getLastD first).2 / first.2 - 1) ∧
    ReportMetrics.get_cumulative_return series "INCEPTION"
        = some ((rest.getLastD first).2 / first.2 - 1) ∧
    PortfolioAnalytics.get_cumulative_return toOffset series "INCEPTION"
        = some ((rest.getLastD first).2 / first.2 - 1) := by
  have hne : series.isEmpty = false := by
    cases series with
    | nil => simp [dropNone, sortByDate] at hs
    | cons a t => rfl
  have hI : (strUpper "INCEPTION" == "INCEPTION") = true := by decide
  have hasof := asof_head first rest hstrict
  refine ⟨?_, ?_, ?_⟩
  · simp [ReturnMetrics.get_cumulative_return, hne, hs, hI]
  · simp [ReportMetrics.get_cumulative_return, hne, hs, hI]
  · simp [PortfolioAnalytics.get_cumulative_return, hne, hs, hI, hasof]

/-- Witness for C5: a two-point series; all three calculators give
`121/100 - 1`. -/
theorem C5_witness :
    ReturnMetrics.get_cumulative_return
        [(⟨2025, 1, 1⟩, some 100), (⟨2025, 7, 1⟩, some 121)] "INCEPTION"
      = some (121 / 100 - 1) ∧
    ReportMetrics.get_cumulative_return
        [(⟨2025, 1, 1⟩, some 100), (⟨2025, 7, 1⟩, some 121)] "INCEPTION"
      = some (121 / 100 - 1) ∧
    PortfolioAnalytics.get_cumulative_return (fun _ _ => none)
        [(⟨2025, 1, 1⟩, some 100), (⟨2025, 7, 1⟩, some 121)] "INCEPTION"
      = some (121 / 100 - 1) := by
  have h := C5_inception_exact (fun _ _ => none)
      [(⟨2025, 1, 1⟩, some 100), (⟨2025, 7, 1⟩, some 121)]
      (⟨2025, 1, 1⟩, 100) [(⟨2025, 7, 1⟩, 121)]
      (by norm_num [sortByDate, dropNone, insertByDate, Date.le_def, Date.key,
        List.filterMap_cons])
      (by decide)
      (by norm_num)
  simpa using h

/-! ## Claim C6 — fallback clamp to inception -/

/-- C6: for every value series (non-empty after cleaning, duplicate-free
dates) and every anchored window (`YTD`, `<n>Y`, `<n>M` — the windows that
resolve to a start date) whose resolved start date predates the series' first
observation, `get_cumulative_return` of return_metrics.py and
report_metrics.py equals the `INCEPTION` result. -/
theorem C6_fallback_clamp
    (series : List (Date × Option ℚ)) (first : Date × ℚ) (rest : List (Date × ℚ))
    (hs : sortByDate (dropNone series) = first :: rest)
    (hstrict : strictAscending (first :: rest) = true)
    (w : String) (st : Date)
    (hw : resolveStart (rest.getLastD first).1 (strUpper w) = some st)
    (hlt : st < first.1) :
    ReturnMetrics.get_cumulative_return series w
        = ReturnMetrics.get_cumulative_return series "INCEPTION" ∧
    ReportMetrics.get_cumulative_return series w
        = ReportMetrics.get_cumulative_return series "INCEPTION" := by
  have hne : series.isEmpty = false := by
    cases series with
    | nil => simp [dropNone, sortByDate] at hs
    | cons a t => rfl
  have hI : (strUpper "INCEPTION" == "INCEPTION") = true := by decide
  have hIY : ("INCEPTION" == "YTD") = false := by decide
  have hIEy : endsCh "INCEPTION" 'Y' = false := by decide
  have hIEm : endsCh "INCEPTION" 'M' = false := by decide
  have hninc : ¬ (strUpper w == "INCEPTION") = true := by
    intro hx
    rw [beq_iff_eq] at hx
    rw [hx] at hw
    have hnone : resolveStart (rest.getLastD first).1 "INCEPTION" = none := by
      simp [resolveStart, hIY, hIEy, hIEm]
    rw [hnone] at hw
    exact Option.noConfusion hw
  have hasof := asof_head first rest hstrict
  have hw' : resolveStart (rest.getLast?.getD first).1 (strUpper w) = some st := by
    simpa using hw
  constructor
  · simp [ReturnMetrics.get_cumulative_return, hne, hs, hI, hninc, hw', hlt, hasof]
  · simp [ReportMetrics.get_cumulative_return, hne, hs, hI, hninc, hw', hlt, hasof]

/-- Witness for C6: a "1Y" request on three months of data clamps to the
series start and equals the INCEPTION result. -/
theorem C6_witness :
    ReturnMetrics.get_cumulative_return
        [(⟨2025, 4, 1⟩, some 100), (⟨2025, 7, 1⟩, some 110)] "1Y"
      = ReturnMetrics.get_cumulative_return
        [(⟨2025, 4, 1⟩, some 100), (⟨2025, 7, 1⟩, some 110)] "INCEPTION" ∧
    ReportMetrics.get_cumulative_return
        [(⟨2025, 4, 1⟩, some 100), (⟨2025, 7, 1⟩, some 110)] "1Y"
      = ReportMetrics.get_cumulative_return
        [(⟨2025, 4, 1⟩, some 100), (⟨2025, 7, 1⟩, some 110)] "INCEPTION" := by
  exact C6_fallback_clamp
    [(⟨2025, 4, 1⟩, some 100), (⟨2025, 7, 1⟩, some 110)]
    (⟨2025, 4, 1⟩, 100) [(⟨2025, 7, 1⟩, 110)]
    (by norm_num [sortByDate, dropNone, insertByDate, Date.le_def, Date.key,
      List.filterMap_cons])
    (by decide)
    "1Y" ⟨2024, 7, 1⟩
    (by decide)
    (by decide)

/-! ## Claim C10 — unknown windows silently fall through to inception -/

/-- C10: for every value series that is non-empty after cleaning and every
window string whose uppercasing is none of `INCEPTION`, `YTD`,
digits-then-`Y`, digits-then-`M`, both return_metrics.py's and
report_metrics.py's `get_cumulative_return` silently return the inception
return `(last value / first value) - 1` instead of raising. -/
theorem C10_unknown_window_falls_through
    (series : List (Date × Option ℚ)) (first : Date × ℚ) (rest : List (Date × ℚ))
    (hs : sortByDate (dropNone series) = first :: rest)
    (hfz : first.2 ≠ 0)
    (w : String)
    (h1 : ¬ strUpper w = "INCEPTION") (h2 : ¬ strUpper w = "YTD")
    (h3 : ¬ (endsCh (strUpper w) 'Y' = true ∧ isDigitsL (dropLast1 (strUpper w)) = true))
    (h4 : ¬ (endsCh (strUpper w) 'M' = true ∧ isDigitsL (dropLast1 (strUpper w)) = true)) :
    ReturnMetrics.get_cumulative_return series w
        = some ((rest.getLastD first).2 / first.2 - 1) ∧
    ReportMetrics.get_cumulative_return series w
        = some ((rest.getLastD first).2 / first.2 - 1) := by
  have hne : series.isEmpty = false := by
    cases series with
    | nil => simp [dropNone, sortByDate] at hs
    | cons a t => rfl
  have hninc : ¬ (strUpper w == "INCEPTION") = true := by
    simpa [beq_iff_eq] using h1
  have hres : resolveStart (rest.getLast?.getD first).1 (strUpper w) = none := by
    simp [resolveStart, beq_iff_eq, h2, Bool.and_eq_true, h3, h4]
  constructor
  · simp [ReturnMetrics.get_cumulative_return, hne, hs, hninc, hres]
  · simp [ReportMetrics.get_cumulative_return, hne, hs, hninc, hres]

/-! ## Claim C2 — no basis-rescue rewrite; return forced to 0 instead -/

/-- C2 counterexample: a position with cost basis 0 and market value 100
produces a record whose stored cost basis is still 0 — the engine does not set
the cost basis equal to the market value (the claim, as stated, is false). -/
theorem C2_counterexample :
    ∃ r ∈ StatementIngestion.process_holdings_from_data
        ⟨[⟨"ABC", "100", "0", "d", "s"⟩], [], []⟩,
      r.avg_cost = 0 ∧ r.raw_value = 100 ∧ ¬ r.avg_cost = r.raw_value := by
  have h : StatementIngestion.process_holdings_from_data
      ⟨[⟨"ABC", "100", "0", "d", "s"⟩], [], []⟩
      = [⟨"ABC", "d", "s", 100, 0, 0, 0, 0, 1⟩] := by
    norm_num +decide [StatementIngestion.process_holdings_from_data,
      StatementIngestion.all_symbols, StatementIngestion.mkHoldingRow,
      StatementIngestion.validOpen, StatementIngestion.validDivs,
      StatementIngestion.validPerf, StatementIngestion.openRowsFor,
      StatementIngestion.divSum, StatementIngestion.realSum,
      StatementIngestion.perfRowFor, StatementIngestion.descFor,
      StatementIngestion.sectorFor, StatementIngestion.ibkrReturnFor,
      is_valid_ticker, stripChars, upperChars, occursIn, leadsList, isPySpace,
      coerceFloat, parseFloatQ, digitsToNat, digitVal, List.dedup]
  rw [h]
  exact ⟨_, List.mem_cons_self _ _, rfl, rfl, by norm_num⟩

/-- C2 (amended): for every instrument whose summed cost basis is exactly 0,
whose summed market value is nonzero, and for which no official per-symbol
statement return is available, the engine leaves the stored cost basis at 0
and instead sets the cumulative return directly to 0.0 — the return is 0% as
the spec intends, but the cost basis is never rewritten to the market value.
-/
theorem C2_zero_basis_zero_return (s : StatementIngestion.Sections) (sym : String)
    (hcb : ((StatementIngestion.openRowsFor s sym).map
        fun r => coerceFloat r.CostBasis).sum = 0)
    (hmv : ((StatementIngestion.openRowsFor s sym).map
        fun r => coerceFloat r.Value).sum ≠ 0)
    (hibkr : StatementIngestion.ibkrReturnFor s sym = none) :
    (StatementIngestion.mkHoldingRow s sym).cumulative_return = 0 ∧
    (StatementIngestion.mkHoldingRow s sym).avg_cost = 0 := by
  constructor
  · simp [StatementIngestion.mkHoldingRow, hibkr, hcb]
  · simp [StatementIngestion.mkHoldingRow, hcb]

/-- Witness for C2 at the concrete zero-basis position. -/
theorem C2_witness :
    (StatementIngestion.mkHoldingRow
        ⟨[⟨"ABC", "100", "0", "d", "s"⟩], [], []⟩ "ABC").cumulative_return = 0 ∧
    (StatementIngestion.mkHoldingRow
        ⟨[⟨"ABC", "100", "0", "d", "s"⟩], [], []⟩ "ABC").avg_cost = 0 := by
  refine C2_zero_basis_zero_return _ "ABC" ?_ ?_ ?_ <;>
    norm_num +decide [StatementIngestion.openRowsFor, StatementIngestion.validOpen,
      StatementIngestion.ibkrReturnFor, StatementIngestion.perfRowFor,
      StatementIngestion.validPerf,
      is_valid_ticker, stripChars, upperChars, occursIn, leadsList, isPySpace,
      coerceFloat, parseFloatQ, digitsToNat, digitVal]

/-! ## Claim C3 — per-instrument cumulative return formula -/

/-- C3 counterexample: when the statement carries its own `Return` for a
symbol (here 5, i.e. 5%), the engine reports that value (0.05), not
`(market_value + dividends + realized_gain) / cost_basis − 1 = 0.21`, even
though the cost basis is nonzero — the claim, as stated, is false. -/
theorem C3_counterexample :
    ∃ r ∈ StatementIngestion.process_holdings_from_data
        ⟨[⟨"AAPL", "1200", "1000", "Apple", "Tech"⟩], [⟨"AAPL", "10"⟩],
          [⟨"AAPL", "0", "5", "Apple", "Tech"⟩]⟩,
      ¬ r.avg_cost = 0 ∧
      ¬ r.cumulative_return
          = (r.raw_value + r.total_dividends + r.realized_pl) / r.avg_cost - 1 := by
  have h : StatementIngestion.process_holdings_from_data
      ⟨[⟨"AAPL", "1200", "1000", "Apple", "Tech"⟩], [⟨"AAPL", "10"⟩],
        [⟨"AAPL", "0", "5", "Apple", "Tech"⟩]⟩
      = [⟨"AAPL", "Apple", "Tech", 1200, 1000, 10, 0, 1/20, 1⟩] := by
    norm_num +decide [StatementIngestion.process_holdings_from_data,
      StatementIngestion.all_symbols, StatementIngestion.mkHoldingRow,
      StatementIngestion.validOpen, StatementIngestion.validDivs,
      StatementIngestion.validPerf, StatementIngestion.openRowsFor,
      StatementIngestion.divSum, StatementIngestion.realSum,
      StatementIngestion.perfRowFor, StatementIngestion.descFor,
      StatementIngestion.sectorFor, StatementIngestion.ibkrReturnFor,
      is_valid_ticker, stripChars, upperChars, occursIn, leadsList, isPySpace,
      coerceFloat, parseFloatQ, digitsToNat, digitVal, List.dedup]
  rw [h]
  exact ⟨_, List.mem_cons_self _ _, by norm_num, by norm_num⟩

/-- C3 (amended): the official per-symbol statement return, when present,
takes precedence over the formula; only in its absence does the return equal
`(market_value + dividends + realized_gain) / cost_basis − 1` — and that only
for a strictly positive cost basis, a negative cost basis also yielding 0.0.
-/
theorem C3_return_formula (s : StatementIngestion.Sections) (sym : String) :
    (∀ twr, StatementIngestion.ibkrReturnFor s sym = some twr →
        (StatementIngestion.mkHoldingRow s sym).cumulative_return = twr) ∧
    (StatementIngestion.ibkrReturnFor s sym = none →
      (0 < (StatementIngestion.mkHoldingRow s sym).avg_cost →
        (StatementIngestion.mkHoldingRow s sym).cumulative_return
          = ((StatementIngestion.mkHoldingRow s sym).raw_value
              + (StatementIngestion.mkHoldingRow s sym).total_dividends
              + (StatementIngestion.mkHoldingRow s sym).realized_pl)
            / (StatementIngestion.mkHoldingRow s sym).avg_cost - 1) ∧
      ((StatementIngestion.mkHoldingRow s sym).avg_cost ≤ 0 →
        (StatementIngestion.mkHoldingRow s sym).cumulative_return = 0)) := by
  refine ⟨fun twr h => by simp [StatementIngestion.mkHoldingRow, h], fun h => ⟨?_, ?_⟩⟩
  · intro hpos
    have hpos' := hpos
    simp only [StatementIngestion.mkHoldingRow, h] at hpos' ⊢
    rw [if_pos hpos']
    have hne : (((StatementIngestion.openRowsFor s sym).map
        fun r => coerceFloat r.CostBasis).sum) ≠ 0 := ne_of_gt hpos'
    field_simp
    ring
  · intro hle
    have hle' := hle
    simp only [StatementIngestion.mkHoldingRow, h] at hle' ⊢
    rw [if_neg (by exact not_lt.mpr hle')]

/-- Witness for C3: the official 5% return wins at one input; the formula
applies at an input without a statement return. -/
theorem C3_witness :
    (StatementIngestion.mkHoldingRow
        ⟨[⟨"AAPL", "1200", "1000", "Apple", "Tech"⟩], [⟨"AAPL", "10"⟩],
          [⟨"AAPL", "0", "5", "Apple", "Tech"⟩]⟩ "AAPL").cumulative_return = 1/20 ∧
    (StatementIngestion.mkHoldingRow
        ⟨[⟨"AAPL", "1200", "1000", "Apple", "Tech"⟩], [⟨"AAPL", "10"⟩], []⟩
        "AAPL").cumulative_return
      = ((StatementIngestion.mkHoldingRow
            ⟨[⟨"AAPL", "1200", "1000", "Apple", "Tech"⟩], [⟨"AAPL", "10"⟩], []⟩
            "AAPL").raw_value
          + (StatementIngestion.mkHoldingRow
            ⟨[⟨"AAPL", "1200", "1000", "Apple", "Tech"⟩], [⟨"AAPL", "10"⟩], []⟩
            "AAPL").total_dividends
          + (StatementIngestion.mkHoldingRow
            ⟨[⟨"AAPL", "1200", "1000", "Apple", "Tech"⟩], [⟨"AAPL", "10"⟩], []⟩
            "AAPL").realized_pl)
        / (StatementIngestion.mkHoldingRow
            ⟨[⟨"AAPL", "1200", "1000", "Apple", "Tech"⟩], [⟨"AAPL", "10"⟩], []⟩
            "AAPL").avg_cost - 1 := by
  constructor
  · exact (C3_return_formula _ "AAPL").1 (1/20)
      (by norm_num +decide [StatementIngestion.ibkrReturnFor,
        StatementIngestion.perfRowFor, StatementIngestion.validPerf,
        is_valid_ticker, stripChars, upperChars, occursIn, leadsList, isPySpace,
        coerceFloat, parseFloatQ, digitsToNat, digitVal])
  · exact ((C3_return_formula _ "AAPL").2
      (by norm_num +decide [StatementIngestion.ibkrReturnFor,
        StatementIngestion.perfRowFor, StatementIngestion.validPerf])).1
      (by norm_num +decide [StatementIngestion.mkHoldingRow,
        StatementIngestion.openRowsFor, StatementIngestion.validOpen,
        is_valid_ticker, stripChars, upperChars, occursIn, leadsList, isPySpace,
        coerceFloat, parseFloatQ, digitsToNat, digitVal])

/-! ## Claim C9 — weights -/

/-- C9 counterexample: a non-empty reconciled holdings table whose market
values cancel (total 0) gets every weight set to the scalar 0.0; the weights
sum to 0, not 1 — the claim, as stated, is false. -/
theorem C9_counterexample :
    (StatementIngestion.process_holdings_from_data
        ⟨[⟨"AAA", "100", "100", "", ""⟩, ⟨"BBB", "-100", "50", "", ""⟩], [], []⟩).length
      = 2 ∧
    ((StatementIngestion.process_holdings_from_data
        ⟨[⟨"AAA", "100", "100", "", ""⟩, ⟨"BBB", "-100", "50", "", ""⟩], [], []⟩).map
      (·.avg_weight)).sum = 0 := by
  have h : StatementIngestion.process_holdings_from_data
      ⟨[⟨"AAA", "100", "100", "", ""⟩, ⟨"BBB", "-100", "50", "", ""⟩], [], []⟩
      = [⟨"AAA", "", "", 100, 100, 0, 0, 0, 0⟩, ⟨"BBB", "", "", -100, 50, 0, 0, -3, 0⟩] := by
    norm_num +decide [StatementIngestion.process_holdings_from_data,
      StatementIngestion.all_symbols, StatementIngestion.mkHoldingRow,
      StatementIngestion.validOpen, StatementIngestion.validDivs,
      StatementIngestion.validPerf, StatementIngestion.openRowsFor,
      StatementIngestion.divSum, StatementIngestion.realSum,
      StatementIngestion.perfRowFor, StatementIngestion.descFor,
      StatementIngestion.sectorFor, StatementIngestion.ibkrReturnFor,
      is_valid_ticker, stripChars, upperChars, occursIn, leadsList, isPySpace,
      coerceFloat, parseFloatQ, digitsToNat, digitVal, List.dedup]
  rw [h]
  norm_num

/-- Helper: assigning `raw_value / t` as every row's weight makes the weights
sum to 1 when `t` is the (nonzero) total of the raw values. -/
theorem weights_sum_eq_one (rows : List StatementIngestion.HoldingRow) (t : ℚ)
    (ht : t ≠ 0) (hsum : (rows.map (·.raw_value)).sum = t) :
    ((rows.map fun r => { r with avg_weight := r.raw_value / t }).map
      (·.avg_weight)).sum = 1 := by
  rw [List.map_map]
  have hcongr : (rows.map ((fun x : StatementIngestion.HoldingRow => x.avg_weight) ∘
      fun r => { r with avg_weight := r.raw_value / t }))
      = rows.map (fun r => r.raw_value * t⁻¹) := by
    apply List.map_congr_left
    intro r _
    simp [Function.comp, div_eq_mul_inv]
  rw [hcongr, List.sum_map_mul_right, hsum]
  exact mul_inv_cancel₀ ht

/-- C9 (amended): for every reconciled holdings table whose total market value
is nonzero, each instrument's weight equals its market value divided by the
total market value and the weights sum to exactly 1. -/
theorem C9_weights_sum_one (s : StatementIngestion.Sections)
    (htot : ((((StatementIngestion.all_symbols s).map
        (StatementIngestion.mkHoldingRow s)).map (·.raw_value)).sum) ≠ 0) :
    (∀ r ∈ StatementIngestion.process_holdings_from_data s,
        r.avg_weight = r.raw_value
          / (((StatementIngestion.all_symbols s).map
              (StatementIngestion.mkHoldingRow s)).map (·.raw_value)).sum) ∧
    ((StatementIngestion.process_holdings_from_data s).map (·.avg_weight)).sum = 1 := by
  constructor
  · intro r hr
    simp only [StatementIngestion.process_holdings_from_data] at hr
    rw [if_pos htot] at hr
    obtain ⟨r0, _, rfl⟩ := List.mem_map.mp hr
    rfl
  · simp only [StatementIngestion.process_holdings_from_data]
    rw [if_pos htot]
    exact weights_sum_eq_one _ _ htot rfl

set_option maxHeartbeats 2000000 in
/-- Witness for C9 at a single-position table: the unique record's weight
equals its market value over the total, and the weights sum to 1. -/
theorem C9_witness :
    ((⟨"AAPL", "Apple", "Tech", 1200, 1000, 0, 0, 1/5, 1⟩ :
        StatementIngestion.HoldingRow).avg_weight
      = (⟨"AAPL", "Apple", "Tech", 1200, 1000, 0, 0, 1/5, 1⟩ :
          StatementIngestion.HoldingRow).raw_value
        / (((StatementIngestion.all_symbols
            ⟨[⟨"AAPL", "1200", "1000", "Apple", "Tech"⟩], [], []⟩).map
            (StatementIngestion.mkHoldingRow
              ⟨[⟨"AAPL", "1200", "1000", "Apple", "Tech"⟩], [], []⟩)).map
          (·.raw_value)).sum) ∧
    ((StatementIngestion.process_holdings_from_data
        ⟨[⟨"AAPL", "1200", "1000", "Apple", "Tech"⟩], [], []⟩).map
      (·.avg_weight)).sum = 1 := by
  have htot : ((((StatementIngestion.all_symbols
      ⟨[⟨"AAPL", "1200", "1000", "Apple", "Tech"⟩], [], []⟩).map
      (StatementIngestion.mkHoldingRow
        ⟨[⟨"AAPL", "1200", "1000", "Apple", "Tech"⟩], [], []⟩)).map
      (·.raw_value)).sum) ≠ 0 := by
    norm_num +decide [StatementIngestion.all_symbols, StatementIngestion.mkHoldingRow,
      StatementIngestion.validOpen, StatementIngestion.validDivs,
      StatementIngestion.validPerf, StatementIngestion.openRowsFor,
      StatementIngestion.divSum, StatementIngestion.realSum,
      StatementIngestion.perfRowFor, StatementIngestion.descFor,
      StatementIngestion.sectorFor, StatementIngestion.ibkrReturnFor,
      is_valid_ticker, stripChars, upperChars, occursIn, leadsList, isPySpace,
      coerceFloat, parseFloatQ, digitsToNat, digitVal, List.dedup]
  constructor
  · refine (C9_weights_sum_one _ htot).1 _ ?_
    have h : StatementIngestion.process_holdings_from_data
        ⟨[⟨"AAPL", "1200", "1000", "Apple", "Tech"⟩], [], []⟩
        = [⟨"AAPL", "Apple", "Tech", 1200, 1000, 0, 0, 1/5, 1⟩] := by
      norm_num +decide [StatementIngestion.process_holdings_from_data,
        StatementIngestion.all_symbols, StatementIngestion.mkHoldingRow,
        StatementIngestion.validOpen, StatementIngestion.validDivs,
        StatementIngestion.validPerf, StatementIngestion.openRowsFor,
        StatementIngestion.divSum, StatementIngestion.realSum,
        StatementIngestion.perfRowFor, StatementIngestion.descFor,
        StatementIngestion.sectorFor, StatementIngestion.ibkrReturnFor,
        is_valid_ticker, stripChars, upperChars, occursIn, leadsList, isPySpace,
        coerceFloat, parseFloatQ, digitsToNat, digitVal, List.dedup]
    rw [h]
    exact List.mem_cons_self _ _
  · exact (C9_weights_sum_one _ htot).2

/-! ## Claim C1 — there is no reconciliation-to-total plug -/

theorem sum_map_ite_single (c : ℚ) (k : String) :
    ∀ (syms : List String), syms.Nodup → k ∈ syms →
      (syms.map fun sy => if k = sy then c else 0).sum = c
  | [], _, hk => absurd hk (List.not_mem_nil k)
  | a :: t, hnd, hk => by
    rcases List.mem_cons.mp hk with rfl | hk'
    · have ha : k ∉ t := (List.nodup_cons.mp hnd).1
      have hz : (t.map fun sy => if k = sy then c else 0) = t.map fun _ => (0 : ℚ) := by
        apply List.map_congr_left
        intro sy hsy
        rw [if_neg]
        rintro rfl
        exact ha hsy
      have h0 : (t.map fun _ => (0 : ℚ)).sum = 0 :=
        List.sum_eq_zero (by intro x hx; rcases List.mem_map.mp hx with ⟨_, _, rfl⟩; rfl)
      simp [hz, h0]
    · have hne : ¬ k = a := by
        rintro rfl
        exact (List.nodup_cons.mp hnd).1 hk'
      have hrec := sum_map_ite_single c k t (List.nodup_cons.mp hnd).2 hk'
      simp [hne, hrec]

/-- Partitioning a sum by distinct keys: summing the per-key filtered sums
over a duplicate-free key list covering all rows recovers the total sum. -/
theorem sum_groupBy_filter {α : Type} (key : α → String) (f : α → ℚ) :
    ∀ (rows : List α) (syms : List String), syms.Nodup →
      (∀ r ∈ rows, key r ∈ syms) →
      (syms.map fun sy => ((rows.filter fun r => key r == sy).map f).sum).sum
        = (rows.map f).sum
  | [], syms, _, _ => by
    have h0 : (syms.map fun sy =>
        (((List.filter (fun r => key r == sy) [])).map f).sum) = syms.map fun _ => (0 : ℚ) := by
      apply List.map_congr_left
      intro sy _
      simp
    rw [h0, List.map_nil, List.sum_nil]
    exact List.sum_eq_zero (by intro x hx; rcases List.mem_map.mp hx with ⟨_, _, rfl⟩; rfl)
  | r :: t, syms, hnd, hcov => by
    have hr : key r ∈ syms := hcov r (List.mem_cons_self r t)
    have hcov' : ∀ x ∈ t, key x ∈ syms := fun x hx => hcov x (List.mem_cons_of_mem r hx)
    have hstep : ∀ sy ∈ syms,
        ((List.filter (fun x => key x == sy) (r :: t)).map f).sum
          = (if key r = sy then f r else 0)
            + ((List.filter (fun x => key x == sy) t).map f).sum := by
      intro sy _
      by_cases h : key r = sy
      · simp [List.filter_cons, h]
      · simp [List.filter_cons, h]
    rw [List.map_congr_left hstep, List.sum_map_add,
      sum_map_ite_single (f r) (key r) syms hnd hr,
      sum_groupBy_filter key f t syms hnd hcov']
    simp

theorem valid_symbol_ne_empty (t : String) (h : is_valid_ticker t = true) :
    ¬ t = "" := by
  rintro rfl
  revert h
  decide

theorem all_symbols_nodup (s : StatementIngestion.Sections) :
    (StatementIngestion.all_symbols s).Nodup :=
  (List.nodup_dedup _).filter _

theorem mem_all_symbols_of_open (s : StatementIngestion.Sections)
    (r : StatementIngestion.OpenRow) (hr : r ∈ StatementIngestion.validOpen s) :
    r.Symbol ∈ StatementIngestion.all_symbols s := by
  have hv : is_valid_ticker r.Symbol = true := (List.mem_filter.mp hr).2
  unfold StatementIngestion.all_symbols
  rw [List.mem_filter]
  constructor
  · rw [List.mem_dedup, List.mem_append, List.mem_append]
    exact Or.inl (Or.inl (List.mem_map_of_mem _ hr))
  · simpa [bne_iff_ne] using valid_symbol_ne_empty r.Symbol hv

/-- C1 (amended): the engine performs no reconciliation against the reported
total net value: it synthesizes no rows at all — every output ticker occurs
as a Symbol of one of the three input tables, so no 'Accruals' or 'Settled
Cash' row can appear unless it was in the statement — and the sum of the
output market values equals the sum of the valid open-position values,
irrespective of the reported total and the settled cash. -/
theorem C1_no_reconciliation (s : StatementIngestion.Sections) :
    (∀ r ∈ StatementIngestion.process_holdings_from_data s,
        r.ticker ∈ s.open_positions.map (·.Symbol) ∨
        r.ticker ∈ s.dividends.map (·.Symbol) ∨
        r.ticker ∈ s.perf_by_symbol.map (·.Symbol)) ∧
    ((StatementIngestion.process_holdings_from_data s).map (·.raw_value)).sum
      = ((StatementIngestion.validOpen s).map fun r => coerceFloat r.Value).sum := by
  constructor
  · intro r hr
    have hticker : r.ticker ∈ StatementIngestion.all_symbols s := by
      simp only [StatementIngestion.process_holdings_from_data] at hr
      split at hr <;>
      · rw [List.map_map] at hr
        obtain ⟨sym, hsym, rfl⟩ := List.mem_map.mp hr
        exact hsym
    unfold StatementIngestion.all_symbols at hticker
    have h1 := (List.mem_filter.mp hticker).1
    rw [List.mem_dedup, List.mem_append, List.mem_append] at h1
    rcases h1 with (h | h) | h
    · left
      obtain ⟨q, hq, hqe⟩ := List.mem_map.mp h
      rw [← hqe]
      exact List.mem_map_of_mem _ (List.mem_of_mem_filter hq)
    · right; left
      obtain ⟨q, hq, hqe⟩ := List.mem_map.mp h
      rw [← hqe]
      exact List.mem_map_of_mem _ (List.mem_of_mem_filter hq)
    · right; right
      obtain ⟨q, hq, hqe⟩ := List.mem_map.mp h
      rw [← hqe]
      exact List.mem_map_of_mem _ (List.mem_of_mem_filter hq)
  · have hproc : ((StatementIngestion.process_holdings_from_data s).map (·.raw_value))
        = ((StatementIngestion.all_symbols s).map fun sym =>
            (((StatementIngestion.validOpen s).filter fun q => q.Symbol == sym).map
              fun q => coerceFloat q.Value).sum) := by
      simp only [StatementIngestion.process_holdings_from_data]
      split <;>
      · rw [List.map_map, List.map_map]
        apply List.map_congr_left
        intro sym _
        rfl
    rw [hproc]
    exact sum_groupBy_filter (fun q => q.Symbol) (fun q => coerceFloat q.Value)
      (StatementIngestion.validOpen s) (StatementIngestion.all_symbols s)
      (all_symbols_nodup s)
      (fun q hq => mem_all_symbols_of_open s q hq)

/-- C1 counterexample: the spec's own scenario (AAPL value 1200, reported
total 1250, settled cash 40) has discrepancy 10 > $1, yet the output holds no
'Accruals' row and its market values sum to 1200 — off the reported total by
50, far beyond $0.01. -/
theorem C1_counterexample :
    |(1250 : ℚ) - ((StatementIngestion.process_holdings_from_data
        ⟨[⟨"AAPL", "1200", "1000", "Apple", "Tech"⟩], [⟨"AAPL", "10"⟩], []⟩).map
      (·.raw_value)).sum - 40| > 1 ∧
    (∀ r ∈ StatementIngestion.process_holdings_from_data
        ⟨[⟨"AAPL", "1200", "1000", "Apple", "Tech"⟩], [⟨"AAPL", "10"⟩], []⟩,
      ¬ r.ticker = "Accruals") ∧
    ¬ |((StatementIngestion.process_holdings_from_data
        ⟨[⟨"AAPL", "1200", "1000", "Apple", "Tech"⟩], [⟨"AAPL", "10"⟩], []⟩).map
      (·.raw_value)).sum - 1250| ≤ 1/100 := by
  have h : StatementIngestion.process_holdings_from_data
      ⟨[⟨"AAPL", "1200", "1000", "Apple", "Tech"⟩], [⟨"AAPL", "10"⟩], []⟩
      = [⟨"AAPL", "Apple", "Tech", 1200, 1000, 10, 0, 21/100, 1⟩] := by
    norm_num +decide [StatementIngestion.process_holdings_from_data,
      StatementIngestion.all_symbols, StatementIngestion.mkHoldingRow,
      StatementIngestion.validOpen, StatementIngestion.validDivs,
      StatementIngestion.validPerf, StatementIngestion.openRowsFor,
      StatementIngestion.divSum, StatementIngestion.realSum,
      StatementIngestion.perfRowFor, StatementIngestion.descFor,
      StatementIngestion.sectorFor, StatementIngestion.ibkrReturnFor,
      is_valid_ticker, stripChars, upperChars, occursIn, leadsList, isPySpace,
      coerceFloat, parseFloatQ, digitsToNat, digitVal, List.dedup]
  rw [h]
  refine ⟨by norm_num [abs], ?_, by norm_num [abs]⟩
  intro r hr
  rcases List.mem_cons.mp hr with rfl | hr'
  · decide
  · exact absurd hr' (List.not_mem_nil r)

/-- Witness for C1 at the scenario input: the single output ticker AAPL comes
from the statement, and the output market values keep the input sum. -/
theorem C1_witness :
    ((⟨"AAPL", "Apple", "Tech", 1200, 1000, 10, 0, 21/100, 1⟩ :
        StatementIngestion.HoldingRow).ticker
      ∈ ([⟨"AAPL", "1200", "1000", "Apple", "Tech"⟩] :
          List StatementIngestion.OpenRow).map (·.Symbol) ∨
     (⟨"AAPL", "Apple", "Tech", 1200, 1000, 10, 0, 21/100, 1⟩ :
        StatementIngestion.HoldingRow).ticker
      ∈ ([⟨"AAPL", "10"⟩] : List StatementIngestion.DivRow).map (·.Symbol) ∨
     (⟨"AAPL", "Apple", "Tech", 1200, 1000, 10, 0, 21/100, 1⟩ :
        StatementIngestion.HoldingRow).ticker
      ∈ ([] : List StatementIngestion.PerfRow).map (·.Symbol)) ∧
    ((StatementIngestion.process_holdings_from_data
        ⟨[⟨"AAPL", "1200", "1000", "Apple", "Tech"⟩], [⟨"AAPL", "10"⟩], []⟩).map
      (·.raw_value)).sum
      = ((StatementIngestion.validOpen
          ⟨[⟨"AAPL", "1200", "1000", "Apple", "Tech"⟩], [⟨"AAPL", "10"⟩], []⟩).map
        fun r => coerceFloat r.Value).sum := by
  constructor
  · refine (C1_no_reconciliation
      ⟨[⟨"AAPL", "1200", "1000", "Apple", "Tech"⟩], [⟨"AAPL", "10"⟩], []⟩).1 _ ?_
    have h : StatementIngestion.process_holdings_from_data
        ⟨[⟨"AAPL", "1200", "1000", "Apple", "Tech"⟩], [⟨"AAPL", "10"⟩], []⟩
        = [⟨"AAPL", "Apple", "Tech", 1200, 1000, 10, 0, 21/100, 1⟩] := by
      norm_num +decide [StatementIngestion.process_holdings_from_data,
        StatementIngestion.all_symbols, StatementIngestion.mkHoldingRow,
        StatementIngestion.validOpen, StatementIngestion.validDivs,
        StatementIngestion.validPerf, StatementIngestion.openRowsFor,
        StatementIngestion.divSum, StatementIngestion.realSum,
        StatementIngestion.perfRowFor, StatementIngestion.descFor,
        StatementIngestion.sectorFor, StatementIngestion.ibkrReturnFor,
        is_valid_ticker, stripChars, upperChars, occursIn, leadsList, isPySpace,
        coerceFloat, parseFloatQ, digitsToNat, digitVal, List.dedup]
    rw [h]
    exact List.mem_cons_self _ _
  · exact (C1_no_reconciliation
      ⟨[⟨"AAPL", "1200", "1000", "Apple", "Tech"⟩], [⟨"AAPL", "10"⟩], []⟩).2

/-! ## Claim C7 — composite benchmark is the per-date weighted sum -/

theorem getD_map_zero {β : Type} (l : List β) (i : ℕ) :
    (l.map fun _ => (0 : ℚ)).getD i 0 = 0 := by
  induction l generalizing i with
  | nil => simp
  | cons x xs ih =>
    cases i with
    | zero => rfl
    | succ n => simpa using ih n

theorem range_map_getD (l : List ℚ) :
    (List.range l.length).map (fun i => l.getD i 0) = l := by
  induction l with
  | nil => simp
  | cons x xs ih =>
    rw [List.length_cons, List.range_succ_eq_map, List.map_cons, List.map_map]
    show x :: (List.range xs.length).map (fun i => xs.getD i 0) = x :: xs
    rw [ih]

theorem zipWith_getD_add (g : ℚ → Option ℚ → ℚ) :
    ∀ (a : List ℚ) (b : List (Option ℚ)) (i : ℕ),
      i < a.length → i < b.length →
      (List.zipWith g a b).getD i 0 = g (a.getD i 0) (b.getD i none)
  | [], _, i, h1, _ => by simp at h1
  | _ :: _, [], i, _, h2 => by simp at h2
  | x :: xs, y :: ys, 0, _, _ => rfl
  | x :: xs, y :: ys, i + 1, h1, h2 =>
    zipWith_getD_add g xs ys i (by simpa using h1) (by simpa using h2)

theorem assocFind_mem {α : Type} :
    ∀ (l : List (String × α)) (k : String) (v : α),
      assocFind l k = some v → ∃ p, p ∈ l ∧ p.2 = v
  | [], _, _, h => Option.noConfusion h
  | p :: t, k, v, h => by
    by_cases hk : p.1 = k
    · refine ⟨p, List.mem_cons_self p t, ?_⟩
      simp only [assocFind, hk, if_pos] at h
      exact Option.some_inj.mp h
    · have h' : assocFind t k = some v := by simpa [assocFind, hk] using h
      obtain ⟨q, hq, hv⟩ := assocFind_mem t k v h'
      exact ⟨q, List.mem_cons_of_mem _ hq, hv⟩

/-- The composite fold, pointwise: starting from any accumulator on the
table's index, each weighted ticker adds `weight * fillna(0)` at every date.
-/
theorem composite_foldl (tbl : ReturnMetrics.BenchTable)
    (hwf : ∀ c ∈ tbl.cols, c.2.length = tbl.dates.length) :
    ∀ (weights : List (String × ℚ)) (acc : List ℚ),
      acc.length = tbl.dates.length →
      List.foldl
        (fun acc tw =>
          match ReturnMetrics.lookupCol tbl tw.1 with
          | none => acc
          | some col => ReturnMetrics.addWeighted acc col tw.2) acc weights
      = (List.range tbl.dates.length).map
          (fun i => acc.getD i 0
            + (weights.map fun tw => tw.2 * ReturnMetrics.cellOrZero tbl tw.1 i).sum)
  | [], acc, hlen => by
    simp only [List.foldl_nil, List.map_nil, List.sum_nil, add_zero]
    rw [← hlen, range_map_getD]
  | tw :: ws, acc, hlen => by
    rw [List.foldl_cons]
    cases hcol : ReturnMetrics.lookupCol tbl tw.1 with
    | none =>
      rw [composite_foldl tbl hwf ws acc hlen]
      apply List.map_congr_left
      intro i _
      simp [ReturnMetrics.cellOrZero, hcol]
    | some col =>
      have hclen : col.length = tbl.dates.length := by
        obtain ⟨p, hp, hv⟩ := assocFind_mem tbl.cols tw.1 col hcol
        rw [← hv]; exact hwf p hp
      have hlen2 : (ReturnMetrics.addWeighted acc col tw.2).length = tbl.dates.length := by
        simp [ReturnMetrics.addWeighted, hlen, hclen]
      rw [composite_foldl tbl hwf ws _ hlen2]
      apply List.map_congr_left
      intro i hi
      have hi' : i < tbl.dates.length := List.mem_range.mp hi
      rw [ReturnMetrics.addWeighted,
        zipWith_getD_add _ acc col i (by rw [hlen]; exact hi') (by rw [hclen]; exact hi')]
      simp only [ReturnMetrics.cellOrZero, hcol, List.map_cons, List.sum_cons]
      ring

/-- C7: for every benchmark daily-returns table (well-formed columns, at least
one constituent column) and every weight map, the composite series equals, at
each date of the table's index, the sum over weighted tickers of weight times
that ticker's return, a missing (NaN or absent-column) observation
contributing 0 for that date only. -/
theorem C7_composite_weighted_sum (tbl : ReturnMetrics.BenchTable)
    (weights : List (String × ℚ))
    (hcols : tbl.cols ≠ [])
    (hwf : ∀ c ∈ tbl.cols, c.2.length = tbl.dates.length) :
    ReturnMetrics.calculate_composite_benchmark_return tbl weights
      = ReturnMetrics.compositeSpec tbl weights := by
  have h2 : tbl.cols.isEmpty = false := by
    cases hc : tbl.cols with
    | nil => exact absurd hc hcols
    | cons _ _ => rfl
  unfold ReturnMetrics.calculate_composite_benchmark_return ReturnMetrics.compositeSpec
  cases h1 : tbl.dates.isEmpty with
  | true =>
    have hd : tbl.dates = [] := by
      cases hd : tbl.dates with
      | nil => rfl
      | cons d ds => rw [hd] at h1; exact absurd h1 (by simp)
    simp [h1, hd]
  | false =>
    rw [h2]
    simp only [Bool.or_self, Bool.false_eq_true, if_false]
    rw [composite_foldl tbl hwf weights _ (by simp)]
    apply List.map_congr_left
    intro i _
    rw [getD_map_zero, zero_add]

/-- Witness for C7: the 60/40 SPY/AGG scenario — composite return
`0.6·0.01 + 0.4·(−0.005) = 0.004`. -/
theorem C7_witness :
    ReturnMetrics.calculate_composite_benchmark_return
        ⟨[⟨2025, 1, 2⟩], [("SPY", [some (1/100)]), ("AGG", [some (-5/1000)])]⟩
        [("SPY", 6/10), ("AGG", 4/10)]
      = ReturnMetrics.compositeSpec
        ⟨[⟨2025, 1, 2⟩], [("SPY", [some (1/100)]), ("AGG", [some (-5/1000)])]⟩
        [("SPY", 6/10), ("AGG", 4/10)] ∧
    ReturnMetrics.calculate_composite_benchmark_return
        ⟨[⟨2025, 1, 2⟩], [("SPY", [some (1/100)]), ("AGG", [some (-5/1000)])]⟩
        [("SPY", 6/10), ("AGG", 4/10)]
      = [4/1000] := by
  constructor
  · exact C7_composite_weighted_sum _ _ (by simp) (by simp)
  · norm_num +decide [ReturnMetrics.calculate_composite_benchmark_return,
      ReturnMetrics.addWeighted, ReturnMetrics.lookupCol, assocFind]

/-! ## Claim C4 — contents of the Risk Metric Set -/

theorem sum_const_of_all {t : List ℚ} {a : ℚ} (h : ∀ x ∈ t, x = a) :
    t.sum = a * t.length := by
  induction t with
  | nil => simp
  | cons b r ih =>
    have hb : b = a := h b (List.mem_cons_self b r)
    have hr : ∀ x ∈ r, x = a := fun x hx => h x (List.mem_cons_of_mem _ hx)
    rw [List.sum_cons, ih hr, hb, List.length_cons]
    push_cast
    ring

theorem allEqualP_ssd_zero (xs : List ℚ) (h : RiskMetrics.allEqualP xs) :
    RiskMetrics.ssd xs = 0 := by
  cases xs with
  | nil => simp [RiskMetrics.ssd]
  | cons a t =>
    have hall : ∀ x ∈ t, x = a := h
    have hcons : ∀ x ∈ a :: t, x = a := by
      intro x hx
      rcases List.mem_cons.mp hx with rfl | hx'
      · rfl
      · exact hall x hx'
    have hq : RiskMetrics.qmean (a :: t) = a := by
      unfold RiskMetrics.qmean
      rw [sum_const_of_all hcons]
      have hn : ((a :: t).length : ℚ) ≠ 0 := by
        simp [List.length_cons]
        positivity
      field_simp
    unfold RiskMetrics.ssd
    rw [hq]
    apply List.sum_eq_zero
    intro x hx
    rcases List.mem_map.mp hx with ⟨el, hel, rfl⟩
    rw [hcons el hel]
    ring

/-- C4 (amended): with at least two aligned observations and non-degenerate
benchmark and portfolio variation, the risk_metrics.py metric set carries
`Idiosyncratic Risk` = (sample std of the OLS residuals) · √252 and
`R-Squared (vs Bench)` = the squared sample correlation, but **no** `Beta`
key: the regression slope is computed and discarded, so the produced Risk
Metric Set has no benchmark beta. -/
theorem C4_risk_set_contents (combined : List (ℚ × ℚ)) (m : RiskMetrics.Metrics)
    (hm : assocFind m "Beta" = none)
    (h2 : 2 ≤ combined.length)
    (hx : RiskMetrics.ssd (combined.map (·.1)) ≠ 0)
    (hy : RiskMetrics.ssd (combined.map (·.2)) ≠ 0) :
    (RiskMetrics.benchSection combined m).isSome = true ∧
    assocFind ((RiskMetrics.benchSection combined m).getD []) "Idiosyncratic Risk"
      = some (.stdAnn (RiskMetrics.sampleVar (RiskMetrics.olsResiduals combined))) ∧
    (RiskMetrics.RVal.stdAnn
        (RiskMetrics.sampleVar (RiskMetrics.olsResiduals combined))).toReal
      = Real.sqrt ((RiskMetrics.sampleVar (RiskMetrics.olsResiduals combined) : ℚ) : ℝ)
        * Real.sqrt 252 ∧
    assocFind ((RiskMetrics.benchSection combined m).getD []) "R-Squared (vs Bench)"
      = some (.ratv (RiskMetrics.corrSq (combined.map (·.1)) (combined.map (·.2)))) ∧
    assocFind ((RiskMetrics.benchSection combined m).getD []) "Beta" = none := by
  have hemp : combined.isEmpty = false := by
    cases combined with
    | nil => simp at h2
    | cons a t => rfl
  have hnall : ¬ ((combined.map (·.1)).length > 1
      ∧ RiskMetrics.allEqualP (combined.map (·.1))) := by
    rintro ⟨-, hall⟩
    exact hx (allEqualP_ssd_zero _ hall)
  have hlr : RiskMetrics.linregress (combined.map (·.1)) (combined.map (·.2))
      = .ok (RiskMetrics.olsSlope (combined.map (·.1)) (combined.map (·.2)),
             RiskMetrics.olsIntercept (combined.map (·.1)) (combined.map (·.2)),
             RiskMetrics.sxy (combined.map (·.1)) (combined.map (·.2)) ^ 2
               / (RiskMetrics.ssd (combined.map (·.1))
                   * RiskMetrics.ssd (combined.map (·.2)))) := by
    unfold RiskMetrics.linregress
    rw [if_neg hnall, if_neg (not_or.mpr ⟨hx, hy⟩)]
    rfl
  have hn : ((combined.length : ℚ) - 1) ≠ 0 := by
    have h2' : (2 : ℚ) ≤ (combined.length : ℚ) := by exact_mod_cast h2
    intro hcontra
    have : ((combined.length : ℚ)) = 1 := by linarith
    linarith
  have hrsq : RiskMetrics.sxy (combined.map (·.1)) (combined.map (·.2)) ^ 2
      / (RiskMetrics.ssd (combined.map (·.1)) * RiskMetrics.ssd (combined.map (·.2)))
      = RiskMetrics.corrSq (combined.map (·.1)) (combined.map (·.2)) := by
    unfold RiskMetrics.corrSq
    rw [List.length_map, List.length_map]
    have hbc := mul_ne_zero hx hy
    field_simp
    ring
  have hbench : RiskMetrics.benchSection combined m
      = some (RiskMetrics.updateKey
          (RiskMetrics.updateKey m "Idiosyncratic Risk"
            (.stdAnn (RiskMetrics.sampleVar (RiskMetrics.olsResiduals combined))))
          "R-Squared (vs Bench)"
          (.ratv (RiskMetrics.corrSq (combined.map (·.1)) (combined.map (·.2))))) := by
    unfold RiskMetrics.benchSection
    rw [hemp]
    simp only [Bool.false_eq_true, if_false]
    rw [hlr, ← hrsq]
    rfl
  refine ⟨by rw [hbench]; rfl, ?_, rfl, ?_, ?_⟩
  · rw [hbench]
    simp only [Option.getD_some]
    rw [RiskMetrics.assocFind_updateKey, if_neg (by decide),
      RiskMetrics.assocFind_updateKey, if_pos rfl]
  · rw [hbench]
    simp only [Option.getD_some]
    rw [RiskMetrics.assocFind_updateKey, if_pos rfl]
  · rw [hbench]
    simp only [Option.getD_some]
    rw [RiskMetrics.assocFind_updateKey, if_neg (by decide),
      RiskMetrics.assocFind_updateKey, if_neg (by decide)]
    exact hm

/-- C4 counterexample: a run of `calculate_portfolio_risk` with two aligned
portfolio/benchmark observations produces a metric set that contains **no**
`Beta` key at all — the claim that the Risk Metric Set contains Beta is false
on the code. -/
theorem C4_counterexample :
    RiskMetrics.calculate_portfolio_risk
        [(⟨2025, 1, 1⟩, 100), (⟨2025, 1, 2⟩, 101), (⟨2025, 1, 3⟩, 103)]
        [(⟨2025, 1, 2⟩, 1/100), (⟨2025, 1, 3⟩, 2/100)] none ⟨[], []⟩
      = some [("Idiosyncratic Risk", RiskMetrics.RVal.stdAnn 0),
              ("R-Squared (vs Bench)", RiskMetrics.RVal.ratv 1),
              ("Beta: Size (IWM)", RiskMetrics.RVal.ratv 0),
              ("Beta: Value (IWD)", RiskMetrics.RVal.ratv 0),
              ("Beta: Quality (QUAL)", RiskMetrics.RVal.ratv 0),
              ("Beta: Momentum (MTUM)", RiskMetrics.RVal.ratv 0)] ∧
    2 ≤ (RiskMetrics.alignWithBench
          (RiskMetrics.pctChange (sortByDate
            [(⟨2025, 1, 1⟩, 100), (⟨2025, 1, 2⟩, 101), (⟨2025, 1, 3⟩, 103)]))
          [(⟨2025, 1, 2⟩, 1/100), (⟨2025, 1, 3⟩, 2/100)]).length ∧
    assocFind [("Idiosyncratic Risk", RiskMetrics.RVal.stdAnn 0),
              ("R-Squared (vs Bench)", RiskMetrics.RVal.ratv 1),
              ("Beta: Size (IWM)", RiskMetrics.RVal.ratv 0),
              ("Beta: Value (IWD)", RiskMetrics.RVal.ratv 0),
              ("Beta: Quality (QUAL)", RiskMetrics.RVal.ratv 0),
              ("Beta: Momentum (MTUM)", RiskMetrics.RVal.ratv 0)] "Beta" = none := by
  refine ⟨?_, ?_, by decide⟩
  · norm_num +decide [RiskMetrics.calculate_portfolio_risk, RiskMetrics.initialMetrics,
      RiskMetrics.benchSection, RiskMetrics.runFactorPart, RiskMetrics.factorLoop,
      RiskMetrics.factors, RiskMetrics.alignWithBench, RiskMetrics.alignWithFactors,
      RiskMetrics.pctChange, RiskMetrics.pctChange.pctChangeGo, RiskMetrics.linregress,
      RiskMetrics.allEqualP, RiskMetrics.sxy, RiskMetrics.ssd, RiskMetrics.qmean,
      RiskMetrics.sampleVar, RiskMetrics.updateKey, sortByDate, insertByDate,
      lookupDate, List.filterMap_cons]
  · norm_num +decide [RiskMetrics.alignWithBench, RiskMetrics.pctChange,
      RiskMetrics.pctChange.pctChangeGo, sortByDate, insertByDate, lookupDate,
      List.filterMap_cons]

/-- Witness for C4 at two concrete aligned observations: the benchmark
section writes R² = 1 and an idiosyncratic-risk variance of 0, and the set
still holds no `Beta` key. -/
theorem C4_witness :
    assocFind ((RiskMetrics.benchSection [(1/100, 1/100), (2/100, 2/101)]
        RiskMetrics.initialMetrics).getD []) "Beta" = none ∧
    assocFind ((RiskMetrics.benchSection [(1/100, 1/100), (2/100, 2/101)]
        RiskMetrics.initialMetrics).getD []) "R-Squared (vs Bench)"
      = some (.ratv 1) ∧
    assocFind ((RiskMetrics.benchSection [(1/100, 1/100), (2/100, 2/101)]
        RiskMetrics.initialMetrics).getD []) "Idiosyncratic Risk"
      = some (.stdAnn 0) := by
  have h := C4_risk_set_contents [(1/100, 1/100), (2/100, 2/101)]
    RiskMetrics.initialMetrics
    (by decide) (by norm_num)
    (by norm_num [RiskMetrics.ssd, RiskMetrics.qmean])
    (by norm_num [RiskMetrics.ssd, RiskMetrics.qmean])
  obtain ⟨-, hidio, -, hrsq, hbeta⟩ := h
  refine ⟨hbeta, ?_, ?_⟩
  · rw [hrsq]
    norm_num [RiskMetrics.corrSq, RiskMetrics.sxy, RiskMetrics.ssd, RiskMetrics.qmean]
  · rw [hidio]
    norm_num [RiskMetrics.sampleVar, RiskMetrics.olsResiduals, RiskMetrics.olsSlope,
      RiskMetrics.olsIntercept, RiskMetrics.sxy, RiskMetrics.ssd, RiskMetrics.qmean]

/-! ## Claim C8 — factor skipping and the abort-on-failure behaviour -/

theorem factorCol_length (f : RiskMetrics.FactorData) (aligned : List (ℚ × List ℚ))
    (t : String) (x : List ℚ)
    (h : RiskMetrics.factorCol f aligned t = some x) : x.length = aligned.length := by
  unfold RiskMetrics.factorCol at h
  obtain ⟨i, -, rfl⟩ := Option.map_eq_some'.mp h
  exact List.length_map _ _

/-- C8 (amended): a factor with fewer than 2 aligned observations is skipped
and the metrics are untouched (its beta stays at the 0.0 default) — but a
`linregress` failure (constant factor series) at the head of the factor list
stops the whole loop: the remaining factors are never regressed, their betas
also staying at 0.0, while the already-accumulated metrics are returned. -/
theorem C8_factor_loop (f : RiskMetrics.FactorData) (aligned : List (ℚ × List ℚ))
    (y : List ℚ) (m : RiskMetrics.Metrics)
    (label ticker : String) (rest : List (String × String)) (x : List ℚ) :
    (aligned.length ≤ 1 →
      ∀ fs : List (String × String), RiskMetrics.factorLoop f aligned y m fs = m) ∧
    (RiskMetrics.factorCol f aligned ticker = some x → 1 < x.length →
      RiskMetrics.linregress x y = .error () →
      RiskMetrics.factorLoop f aligned y m ((label, ticker) :: rest) = m) := by
  constructor
  · intro hlen fs
    induction fs with
    | nil => rfl
    | cons p fs ih =>
      obtain ⟨lab, tick⟩ := p
      cases hcol : RiskMetrics.factorCol f aligned tick with
      | none => simp [RiskMetrics.factorLoop, hcol, ih]
      | some x0 =>
        have hxlen : x0.length = aligned.length := factorCol_length f aligned tick x0 hcol
        have hng : ¬ x0.length > 1 := by omega
        simp [RiskMetrics.factorLoop, hcol, hng, ih]
  · intro hcol hlen herr
    simp [RiskMetrics.factorLoop, hcol, hlen, herr]

/-- C8 counterexample: with three aligned observations, the Size factor's
series is constant so its regression raises; the loop aborts and the Value
factor's beta is left at the 0.0 default even though its own regression
succeeds with a nonzero slope — "never aborts the others" is false. -/
theorem C8_counterexample :
    RiskMetrics.calculate_portfolio_risk
        [(⟨2025, 1, 1⟩, 100), (⟨2025, 1, 2⟩, 101), (⟨2025, 1, 3⟩, 103),
          (⟨2025, 1, 4⟩, 106)]
        [(⟨2024, 1, 1⟩, 0)] none
        ⟨["IWM", "IWD"],
          [(⟨2025, 1, 2⟩, [5, 1/100]), (⟨2025, 1, 3⟩, [5, 2/100]),
            (⟨2025, 1, 4⟩, [5, 3/100])]⟩
      = some RiskMetrics.initialMetrics ∧
    RiskMetrics.linregress [5, 5, 5] [1/100, 2/101, 3/103] = .error () ∧
    ¬ RiskMetrics.linregress [1/100, 2/100, 3/100] [1/100, 2/101, 3/103]
        = .error () ∧
    ¬ assocFind RiskMetrics.initialMetrics "Beta: Value (IWD)"
        = some (.ratv (RiskMetrics.olsSlope [1/100, 2/100, 3/100]
            [1/100, 2/101, 3/103])) := by
  refine ⟨?_, ?_, ?_, ?_⟩
  · norm_num +decide [RiskMetrics.calculate_portfolio_risk, RiskMetrics.initialMetrics,
      RiskMetrics.benchSection, RiskMetrics.runFactorPart, RiskMetrics.factorLoop,
      RiskMetrics.factors, RiskMetrics.alignWithBench, RiskMetrics.alignWithFactors,
      RiskMetrics.pctChange, RiskMetrics.pctChange.pctChangeGo, RiskMetrics.linregress,
      RiskMetrics.allEqualP, RiskMetrics.factorCol, RiskMetrics.sxy, RiskMetrics.ssd,
      RiskMetrics.qmean, RiskMetrics.sampleVar, RiskMetrics.updateKey, sortByDate,
      insertByDate, lookupDate, List.filterMap_cons]
  · norm_num [RiskMetrics.linregress, RiskMetrics.allEqualP]
  · intro hcon
    unfold RiskMetrics.linregress at hcon
    rw [if_neg] at hcon
    · exact Except.noConfusion hcon
    · rintro ⟨-, hall⟩
      simp only [RiskMetrics.allEqualP] at hall
      have hne := hall (2/100) (by norm_num)
      norm_num at hne
  · have h : assocFind RiskMetrics.initialMetrics "Beta: Value (IWD)"
        = some (.ratv 0) := by decide
    rw [h]
    norm_num [RiskMetrics.olsSlope, RiskMetrics.sxy, RiskMetrics.ssd, RiskMetrics.qmean]

/-- Witness for C8: too few aligned observations leave the metrics untouched,
and a failing head factor discards the whole remaining factor list. -/
theorem C8_witness :
    RiskMetrics.factorLoop ⟨["IWM"], [(⟨2025, 1, 2⟩, [5])]⟩ [(1/100, [5])] [1/100]
        RiskMetrics.initialMetrics RiskMetrics.factors
      = RiskMetrics.initialMetrics ∧
    RiskMetrics.factorLoop
        ⟨["IWM", "IWD"],
          [(⟨2025, 1, 2⟩, [5, 1/100]), (⟨2025, 1, 3⟩, [5, 2/100]),
            (⟨2025, 1, 4⟩, [5, 3/100])]⟩
        [(1/100, [5, 1/100]), (2/101, [5, 2/100]), (3/103, [5, 3/100])]
        [1/100, 2/101, 3/103]
        RiskMetrics.initialMetrics
        (("Size (IWM)", "IWM") :: [("Value (IWD)", "IWD")])
      = RiskMetrics.initialMetrics := by
  constructor
  · exact (C8_factor_loop _ [(1/100, [5])] [1/100] RiskMetrics.initialMetrics
      "Size (IWM)" "IWM" [] [5]).1 (by norm_num) RiskMetrics.factors
  · exact (C8_factor_loop _
      [(1/100, [5, 1/100]), (2/101, [5, 2/100]), (3/103, [5, 3/100])]
      [1/100, 2/101, 3/103] RiskMetrics.initialMetrics
      "Size (IWM)" "IWM" [("Value (IWD)", "IWD")] [5, 5, 5]).2
      (by
        have hidx : List.indexOf? "IWM" ["IWM", "IWD"] = some 0 := by decide
        norm_num [RiskMetrics.factorCol, hidx])
      (by norm_num)
      (by norm_num [RiskMetrics.linregress, RiskMetrics.allEqualP])

/-- Witness for C10 at the unknown window "BOGUS". -/
theorem C10_witness :
    ReturnMetrics.get_cumulative_return
        [(⟨2025, 1, 1⟩, some 100), (⟨2025, 7, 1⟩, some 121)] "BOGUS"
      = some (121 / 100 - 1) ∧
    ReportMetrics.get_cumulative_return
        [(⟨2025, 1, 1⟩, some 100), (⟨2025, 7, 1⟩, some 121)] "BOGUS"
      = some (121 / 100 - 1) := by
  have h := C10_unknown_window_falls_through
      [(⟨2025, 1, 1⟩, some 100), (⟨2025, 7, 1⟩, some 121)]
      (⟨2025, 1, 1⟩, 100) [(⟨2025, 7, 1⟩, 121)]
      (by norm_num [sortByDate, dropNone, insertByDate, Date.le_def, Date.key,
        List.filterMap_cons])
      (by norm_num)
      "BOGUS" (by decide) (by decide) (by decide) (by decide)
  simpa using h

end Gaard



